import Mathlib

/-!
# Verification of the go-shopify request-and-pagination layer

A shallow embedding of the cursor-pagination protocol and the list-call
plumbing of the `goshopify` client library, together with proofs of the
behavioural properties stated in the specification.

The resource-level functions `ListWithPagination` and `List` (from
`metafield.go` and `smartcollection.go`, identical skeletons shared by every
resource module) are embedded as `listWithPagination` and `list`, generic in
the decoded item type, since the item payload flows through them untouched.
The pagination extractor and the error classifier live in the shared client
file which is not part of the sources at hand; they are modelled from the
specification, as marked on the individual definitions.
-/

namespace GoShopify

/-- The relation carried by one `Link` header segment. -/
inductive Rel where
  | next
  | previous
deriving DecidableEq, Repr

/-- Continuation request options extracted from one pagination link:
the opaque `page_info` cursor token and the optional integer `limit`.
Corresponds to the continuation form of the Go `ListOptions` struct. -/
structure ListOptions where
  pageInfo : String
  limit : Option Int
deriving DecidableEq, Repr

/-- The Go `Pagination` struct: at most two continuation descriptors. -/
structure Pagination where
  nextPageOptions : Option ListOptions
  previousPageOptions : Option ListOptions
deriving DecidableEq, Repr

/-- The error taxonomy of the client.  `responseDecoding` is the Go
`ResponseDecodingError`; `api` and `unknown` are the classifier outcomes
for structured and unstructured non-2xx bodies; `plain` stands for an
underlying parse error (URL-escape or integer parse) propagated unchanged. -/
inductive ShopifyError where
  | responseDecoding (message : String)
  | api (status : Nat) (message : String)
  | unknown (status : Nat)
  | plain (message : String)
deriving DecidableEq, Repr

/-- The `Error()` rendering of each error kind; an `unknown` error renders
as the fixed literal. -/
def errorMessage : ShopifyError → String
  | .responseDecoding m => m
  | .api _ m => m
  | .unknown _ => "Unknown Error"
  | .plain m => m

/-! ## Character-list utilities used by the header parser -/

/-- Split a character list on a separator character; always returns at least
one (possibly empty) piece. -/
def splitOnChar (c : Char) : List Char → List (List Char)
  | [] => [[]]
  | a :: tl =>
    let r := splitOnChar c tl
    if a = c then [] :: r
    else (a :: r.headD []) :: r.tail

/-- The suffix strictly after the first occurrence of `c`, if `c` occurs. -/
def afterChar (c : Char) : List Char → Option (List Char)
  | [] => none
  | a :: tl => if a = c then some tl else afterChar c tl

/-- The prefix strictly before the first occurrence of `c`
(the whole list when `c` does not occur). -/
def beforeChar (c : Char) : List Char → List Char
  | [] => []
  | a :: tl => if a = c then [] else a :: beforeChar c tl

/-- Whether `pat` occurs as a contiguous sublist of `l`. -/
def hasInfix (pat : List Char) : List Char → Bool
  | [] => decide (pat = [])
  | a :: tl => pat.isPrefixOf (a :: tl) || hasInfix pat tl

/-! ## URL and query-string parsing, modelled from the specification -/

/-- The scheme part of a URL candidate: the characters before the first `:`,
provided a `:` occurs before any `/`. -/
def findScheme : List Char → Option (List Char)
  | [] => none
  | a :: tl =>
    if a = ':' then some []
    else if a = '/' then none
    else (findScheme tl).map (a :: ·)

/-- Characters allowed in a URL scheme after the leading letter. -/
def isSchemeChar (c : Char) : Bool :=
  c.isAlpha || c.isDigit || c = '+' || c = '-' || c = '.'

/-- Modelled from the spec: well-formedness of the part of a URL before the
query string.  A URL with no scheme separator is a valid relative URL; a URL
whose scheme separator is present must carry a non-empty scheme starting with
a letter (so `:invalid.url`, with an empty scheme before the separator, is
rejected). -/
def validBase (base : List Char) : Bool :=
  match findScheme base with
  | none => true
  | some [] => false
  | some (c :: rest) => c.isAlpha && rest.all isSchemeChar

/-- Modelled from the spec: parse a URL, returning its raw query string
(the part after the first `?`, not yet unescaped); fails when the base part
is not a well-formed URL. -/
def urlParse (l : List Char) : Except String (List Char) :=
  let base := beforeChar '?' l
  let rawQuery := match afterChar '?' l with
    | none => []
    | some q => q
  if validBase base then .ok rawQuery else .error "missing protocol scheme"

/-- The numeric value of a hexadecimal digit, if any (code points 48-57 are
the decimal digits, 97-102 and 65-70 the lower- and upper-case hex
letters). -/
def hexVal (c : Char) : Option Nat :=
  let n := c.toNat
  if 48 ≤ n && n ≤ 57 then some (n - 48)
  else if 97 ≤ n && n ≤ 102 then some (n - 97 + 10)
  else if 65 ≤ n && n ≤ 70 then some (n - 65 + 10)
  else none

/-- The rendering of a malformed percent-escape error: the offending `%` and
up to two following characters, quoted. -/
def escapeErrorMessage (e : List Char) : String :=
  "invalid URL escape " ++ "\"" ++ String.mk e ++ "\""

/-- Modelled from the spec: percent-decoding of a query component.  A `%`
must be followed by two hexadecimal digits; a malformed escape is a parse
error carrying the offending fragment.  `+` decodes to a space. -/
def queryUnescape : List Char → Except String (List Char)
  | [] => .ok []
  | c :: tl =>
    if c = '%' then
      match tl with
      | a :: b :: tl' =>
        match hexVal a, hexVal b with
        | some va, some vb =>
          (Char.ofNat (16 * va + vb) :: ·) <$> queryUnescape tl'
        | _, _ => .error (escapeErrorMessage ('%' :: a :: [b]))
      | _ => .error (escapeErrorMessage ('%' :: tl))
    else if c = '+' then (' ' :: ·) <$> queryUnescape tl
    else (c :: ·) <$> queryUnescape tl

/-- One `key=value` query field: split at the first `=` (a field with no `=`
has an empty value), then percent-decode key and value, key first. -/
def parseQueryField (f : List Char) : Except String (List Char × List Char) :=
  let k := beforeChar '=' f
  let v := match afterChar '=' f with
    | none => []
    | some v => v
  match queryUnescape k with
  | .error m => .error m
  | .ok k' =>
    match queryUnescape v with
    | .error m => .error m
    | .ok v' => .ok (k', v')

/-- Parse a list of query fields left to right; the first malformed field
aborts with its parse error. -/
def parseQueryFields : List (List Char) → Except String (List (List Char × List Char))
  | [] => .ok []
  | f :: tl =>
    match parseQueryField f with
    | .error m => .error m
    | .ok kv =>
      match parseQueryFields tl with
      | .error m => .error m
      | .ok rest => .ok (kv :: rest)

/-- Modelled from the spec: parse a raw query string into an association list
of decoded key/value pairs, splitting fields on `&` and skipping empty
fields; a malformed percent-escape is propagated as a parse error. -/
def parseQuery (raw : List Char) : Except String (List (List Char × List Char)) :=
  parseQueryFields ((splitOnChar '&' raw).filter (fun f => !f.isEmpty))

/-- The first value bound to `key`, if any. -/
def getParam (key : List Char) : List (List Char × List Char) → Option (List Char)
  | [] => none
  | (k, v) :: tl => if k = key then some v else getParam key tl

/-- The numeric value of a non-empty list of decimal digits. -/
def digitsToNat (l : List Char) : Nat :=
  l.foldl (fun acc c => 10 * acc + (c.toNat - '0'.toNat)) 0

/-- Modelled from the spec: base-10 integer parsing in the style of
`strconv.Atoi`: an optional sign followed by at least one decimal digit;
anything else is a syntax error carrying the offending literal. -/
def atoi (l : List Char) : Except String Int :=
  let signAndDigits : Int × List Char :=
    match l with
    | '+' :: tl => (1, tl)
    | '-' :: tl => (-1, tl)
    | _ => (1, l)
  let digits := signAndDigits.2
  if digits.isEmpty || ¬ digits.all Char.isDigit then
    .error ("strconv.Atoi: parsing " ++ "\"" ++ String.mk l ++ "\"" ++ ": invalid syntax")
  else
    .ok (signAndDigits.1 * Int.ofNat (digitsToNat digits))

/-! ## The pagination cursor extractor, modelled from the specification -/

/-- The pattern announcing a next-page link inside a segment. -/
def relNextPat : List Char := "rel=\"next\"".data

/-- The pattern announcing a previous-page link inside a segment. -/
def relPrevPat : List Char := "rel=\"previous\"".data

/-- Modelled from the spec: the recognized relation of a link segment, read
from its `rel=` parameter; `none` for an absent or unrecognized relation. -/
def relOf (seg : List Char) : Option Rel :=
  if hasInfix relNextPat seg then some .next
  else if hasInfix relPrevPat seg then some .previous
  else none

/-- The content between the first `<` and the following `>` of a segment,
if an opening `<` is present. -/
def bracketContent (seg : List Char) : Option (List Char) :=
  (afterChar '<' seg).map (beforeChar '>')

/-- Modelled from the spec: process one recognized link segment into
continuation options.  The bracketed content must parse as a well-formed URL
(else `DecodingError "pagination does not contain a valid URL"`); a
malformed query escape propagates its parse error unchanged; `page_info`
must be present (else `DecodingError "page_info is missing"`); a present
`limit` must parse as a base-10 integer, a failure propagating the integer
parse error unchanged. -/
def processSegment (seg : List Char) : Except ShopifyError ListOptions :=
  match bracketContent seg with
  | none => .error (.responseDecoding "pagination does not contain a valid URL")
  | some urlChars =>
    match urlParse urlChars with
    | .error _ => .error (.responseDecoding "pagination does not contain a valid URL")
    | .ok rawQuery =>
      match parseQuery rawQuery with
      | .error m => .error (.plain m)
      | .ok params =>
        match getParam "page_info".data params with
        | none => .error (.responseDecoding "page_info is missing")
        | some pi =>
          match getParam "limit".data params with
          | none => .ok ⟨String.mk pi, none⟩
          | some lim =>
            match atoi lim with
            | .error m => .error (.plain m)
            | .ok v => .ok ⟨String.mk pi, some v⟩

/-- The segments of a split header paired with their recognized relations;
segments with an absent or unrecognized relation are dropped. -/
def recognizedSegments (segs : List (List Char)) : List (List Char × Rel) :=
  segs.filterMap (fun s => (relOf s).map (fun r => (s, r)))

/-- Process the recognized segments in order, assigning each segment's
options to the field selected by its relation; the first failing segment
aborts with its error. -/
def assignSegments (pag : Pagination) : List (List Char × Rel) → Except ShopifyError Pagination
  | [] => .ok pag
  | (seg, r) :: tl =>
    match processSegment seg with
    | .error e => .error e
    | .ok opts =>
      assignSegments
        (match r with
          | .next => { pag with nextPageOptions := some opts }
          | .previous => { pag with previousPageOptions := some opts }) tl

/-- Modelled from the spec: `extractPagination`, the pagination cursor
extractor, absent from the sources at hand (only its callers and tests are
present).  An absent `Link` header reaches the extractor as the empty
string.  An absent or empty header yields the zero-value `Pagination`; a
header none of whose comma-separated segments carries a recognized `rel`
fails with `DecodingError "could not extract pagination link header"`;
otherwise the recognized segments are processed in order. -/
def extractPagination (linkHeader : String) : Except ShopifyError Pagination :=
  if linkHeader = "" then .ok ⟨none, none⟩
  else
    let recs := recognizedSegments (splitOnChar ',' linkHeader.data)
    if recs.isEmpty then
      .error (.responseDecoding "could not extract pagination link header")
    else
      assignSegments ⟨none, none⟩ recs

/-! ## The list-call plumbing from `metafield.go` / `smartcollection.go` -/

/-- The outcome of the request dispatcher (`createAndDoGetHeaders`): on
success the decoded item sequence together with the response's `Link` header
value (the empty string when the header is absent), on failure the
classified error.  The dispatcher itself is outside the embedded code; the
list functions below are parametric in its outcome. -/
inductive DispatchResult (α : Type) where
  | success (items : List α) (linkHeader : String)
  | failure (e : ShopifyError)
deriving DecidableEq, Repr

/-- The Go triple returned by `ListWithPagination`: a nilable item slice, a
nilable pagination pointer and a nilable error. -/
structure ListWithPaginationReturn (α : Type) where
  items : Option (List α)
  pagination : Option Pagination
  err : Option ShopifyError
deriving DecidableEq, Repr

/-- `ListWithPagination` from `metafield.go` (the identical skeleton appears
in `smartcollection.go` and every other resource module): a dispatcher
failure returns `(nil, nil, err)`; otherwise the `Link` header is fed to the
pagination extractor, whose failure also returns `(nil, nil, err)`; on
success the decoded items and the extracted pagination are returned with a
nil error. -/
def listWithPagination {α : Type} (r : DispatchResult α) : ListWithPaginationReturn α :=
  match r with
  | .failure e => ⟨none, none, some e⟩
  | .success items linkHeader =>
    match extractPagination linkHeader with
    | .error e => ⟨none, none, some e⟩
    | .ok pag => ⟨some items, some pag, none⟩

/-- `List` from `metafield.go` / `smartcollection.go`: call
`ListWithPagination`, discard the pagination, and return nil items on any
error. -/
def list {α : Type} (r : DispatchResult α) : Option (List α) × Option ShopifyError :=
  let lr := listWithPagination r
  match lr.err with
  | some e => (none, some e)
  | none => (lr.items, none)

/-! ## The error classifier, modelled from the specification -/

/-- The shape of a non-2xx response body as seen by the error classifier:
empty, a structured single message, a structured field-to-messages mapping,
or a body that matches none of the known structured shapes. -/
inductive ErrorBodyShape where
  | empty
  | message (msg : String)
  | fields (fs : List (String × List String))
  | unstructured
deriving DecidableEq, Repr

/-- Characters that cannot collide with any delimiter used by the header
parser: a cursor token or limit literal made of such characters passes
through splitting, bracket extraction and query decoding untouched. -/
def tokenSafe (c : Char) : Bool :=
  !(c = ',' || c = '<' || c = '>' || c = ';' || c = '&' || c = '=' ||
    c = '%' || c = '+' || c = '?' || c = '"')

/-- The pagination resulting from a single recognized segment: its options
assigned to the field selected by its relation, or its processing error. -/
def singleResult (r : Rel) (res : Except ShopifyError ListOptions) :
    Except ShopifyError Pagination :=
  match res with
  | .error e => .error e
  | .ok o =>
    .ok (match r with
      | .next => ⟨some o, none⟩
      | .previous => ⟨none, some o⟩)

/-- Modelled from the spec: the error classifier (`CheckResponseError`),
absent from the sources at hand.  A body decoding to a structured error
shape yields an `APIError` carrying the status and the message(s), field
messages rendered as `field message` pairs joined with a comma; an empty or
unstructured body yields `UnknownError` with the status. -/
def classifyError (status : Nat) (body : ErrorBodyShape) : ShopifyError :=
  match body with
  | .message m => .api status m
  | .fields fs =>
    .api status
      (String.intercalate ", "
        ((fs.map (fun fm => fm.2.map (fun m => fm.1 ++ " " ++ m))).flatten))
  | .empty => .unknown status
  | .unstructured => .unknown status

deriving instance DecidableEq for Except

/-! ## Lemmas about the character-list utilities -/

theorem splitOnChar_of_not_mem {c : Char} {l : List Char} (h : c ∉ l) :
    splitOnChar c l = [l] := by
  induction l with
  | nil => rfl
  | cons a tl ih =>
    have ha : ¬ a = c := by rintro rfl; exact h (.head _)
    have htl : c ∉ tl := fun hm => h (.tail _ hm)
    simp [splitOnChar, ha, ih htl]

theorem splitOnChar_append_cons {c : Char} {l₁ l₂ : List Char} (h : c ∉ l₁) :
    splitOnChar c (l₁ ++ c :: l₂) = l₁ :: splitOnChar c l₂ := by
  induction l₁ with
  | nil => simp [splitOnChar]
  | cons a tl ih =>
    have ha : ¬ a = c := by rintro rfl; exact h (.head _)
    have htl : c ∉ tl := fun hm => h (.tail _ hm)
    simp [splitOnChar, ha, ih htl]

theorem beforeChar_of_not_mem {c : Char} {l : List Char} (h : c ∉ l) :
    beforeChar c l = l := by
  induction l with
  | nil => rfl
  | cons a tl ih =>
    have ha : ¬ a = c := by rintro rfl; exact h (.head _)
    have htl : c ∉ tl := fun hm => h (.tail _ hm)
    simp [beforeChar, ha, ih htl]

theorem beforeChar_append {c : Char} {l₁ l₂ : List Char} (h : c ∉ l₁) :
    beforeChar c (l₁ ++ c :: l₂) = l₁ := by
  induction l₁ with
  | nil => simp [beforeChar]
  | cons a tl ih =>
    have ha : ¬ a = c := by rintro rfl; exact h (.head _)
    have htl : c ∉ tl := fun hm => h (.tail _ hm)
    simp [beforeChar, ha, ih htl]

theorem afterChar_of_not_mem {c : Char} {l : List Char} (h : c ∉ l) :
    afterChar c l = none := by
  induction l with
  | nil => rfl
  | cons a tl ih =>
    have ha : ¬ a = c := by rintro rfl; exact h (.head _)
    have htl : c ∉ tl := fun hm => h (.tail _ hm)
    simp [afterChar, ha, ih htl]

theorem afterChar_append {c : Char} {l₁ l₂ : List Char} (h : c ∉ l₁) :
    afterChar c (l₁ ++ c :: l₂) = some l₂ := by
  induction l₁ with
  | nil => simp [afterChar]
  | cons a tl ih =>
    have ha : ¬ a = c := by rintro rfl; exact h (.head _)
    have htl : c ∉ tl := fun hm => h (.tail _ hm)
    simp [afterChar, ha, ih htl]

theorem hasInfix_of_isPrefixOf {pat l : List Char} (h : pat.isPrefixOf l = true) :
    hasInfix pat l = true := by
  cases l with
  | nil =>
    cases pat with
    | nil => rfl
    | cons a tl => simp [List.isPrefixOf] at h
  | cons a tl => simp [hasInfix, h]

theorem hasInfix_append_right {pat l₂ : List Char} (l₁ : List Char)
    (h : hasInfix pat l₂ = true) : hasInfix pat (l₁ ++ l₂) = true := by
  induction l₁ with
  | nil => simpa using h
  | cons a tl ih => simp [hasInfix, ih]

theorem not_mem_of_all_tokenSafe {l : List Char} (h : l.all tokenSafe = true)
    {c : Char} (hc : tokenSafe c = false) : c ∉ l := by
  intro hm
  have := List.all_eq_true.mp h c hm
  rw [hc] at this
  cases this

theorem safe_no_escape {l : List Char} (h : l.all tokenSafe = true) :
    ∀ ch ∈ l, ¬ ch = '%' ∧ ¬ ch = '+' := by
  intro ch hm
  have hch := List.all_eq_true.mp h ch hm
  constructor <;> rintro rfl <;> exact absurd hch (by decide)

theorem queryUnescape_of_safe {l : List Char}
    (h : ∀ ch ∈ l, ¬ ch = '%' ∧ ¬ ch = '+') :
    queryUnescape l = .ok l := by
  induction l with
  | nil => rfl
  | cons a tl ih =>
    obtain ⟨h1, h2⟩ := h a (.head _)
    have htl : ∀ ch ∈ tl, ¬ ch = '%' ∧ ¬ ch = '+' := fun ch hm => h ch (.tail _ hm)
    unfold queryUnescape
    rw [if_neg h1, if_neg h2, ih htl]
    rfl

theorem beforeChar_append_of_not_mem {c : Char} {l₁ l₂ : List Char} (h : c ∉ l₁) :
    beforeChar c (l₁ ++ l₂) = l₁ ++ beforeChar c l₂ := by
  induction l₁ with
  | nil => rfl
  | cons a tl ih =>
    have ha : ¬ a = c := by rintro rfl; exact h (.head _)
    have htl : c ∉ tl := fun hm => h (.tail _ hm)
    simp [beforeChar, ha, ih htl]

theorem afterChar_append_of_not_mem {c : Char} {l₁ l₂ : List Char} (h : c ∉ l₁) :
    afterChar c (l₁ ++ l₂) = afterChar c l₂ := by
  induction l₁ with
  | nil => rfl
  | cons a tl ih =>
    have ha : ¬ a = c := by rintro rfl; exact h (.head _)
    have htl : c ∉ tl := fun hm => h (.tail _ hm)
    simp [afterChar, ha, ih htl]

theorem not_mem_append₅ {c : Char} {l₁ l₂ l₃ l₄ l₅ : List Char}
    (h₁ : c ∉ l₁) (h₂ : c ∉ l₂) (h₃ : c ∉ l₃) (h₄ : c ∉ l₄) (h₅ : c ∉ l₅) :
    c ∉ l₁ ++ (l₂ ++ (l₃ ++ (l₄ ++ l₅))) := by
  simp only [List.mem_append, not_or]
  exact ⟨h₁, h₂, h₃, h₄, h₅⟩

theorem mk_data (s : String) : String.mk s.data = s := rfl

/-! ## Reduction of the extractor on a single recognized segment -/

theorem relOf_nil : relOf ([] : List Char) = none := by
  simp [relOf, hasInfix, relNextPat, relPrevPat]

theorem extract_single {h : String} {r : Rel} (hc : ',' ∉ h.data)
    (hr : relOf h.data = some r) :
    extractPagination h = singleResult r (processSegment h.data) := by
  have hne : ¬ h = "" := by
    intro he
    rw [he] at hr
    rw [show ("" : String).data = [] from rfl, relOf_nil] at hr
    cases hr
  rw [extractPagination, if_neg hne, splitOnChar_of_not_mem hc]
  simp only [recognizedSegments, List.filterMap_cons, List.filterMap_nil, hr,
    Option.map_some', List.isEmpty_cons, Bool.false_eq_true, if_false]
  cases hp : processSegment h.data with
  | error e => simp [assignSegments, hp, singleResult]
  | ok o => cases r <;> simp [assignSegments, hp, singleResult]

theorem relOf_of_hasInfix_next {seg : List Char}
    (h : hasInfix relNextPat seg = true) : relOf seg = some .next := by
  simp [relOf, h]

theorem extract_two {s₁ s₂ : String} {r₁ r₂ : Rel}
    (hc₁ : ',' ∉ s₁.data) (hc₂ : ',' ∉ s₂.data)
    (hr₁ : relOf s₁.data = some r₁) (hr₂ : relOf s₂.data = some r₂) :
    extractPagination (s₁ ++ "," ++ s₂) =
      assignSegments ⟨none, none⟩ [(s₁.data, r₁), (s₂.data, r₂)] := by
  have hdata : (s₁ ++ "," ++ s₂).data = s₁.data ++ ',' :: s₂.data := by
    rw [String.data_append, String.data_append,
      show (",").data = [','] from rfl, List.append_assoc, List.singleton_append]
  have hne : ¬ (s₁ ++ "," ++ s₂) = "" := by
    intro he
    have hd := congrArg String.data he
    rw [hdata] at hd
    simp at hd
  rw [extractPagination, if_neg hne, hdata, splitOnChar_append_cons hc₁,
    splitOnChar_of_not_mem hc₂]
  simp only [recognizedSegments, List.filterMap_cons, List.filterMap_nil, hr₁, hr₂,
    Option.map_some', List.isEmpty_cons, Bool.false_eq_true, if_false]

/-! ## Evaluation of one well-formed next-page segment -/

theorem parseQueryField_eval {K V : List Char} (hk : '=' ∉ K)
    (huk : queryUnescape K = .ok K) (huv : queryUnescape V = .ok V) :
    parseQueryField (K ++ '=' :: V) = .ok (K, V) := by
  simp only [parseQueryField, beforeChar_append hk, afterChar_append hk, huk, huv]

theorem processSegment_next_schema (P D : List Char)
    (hP : P.all tokenSafe = true) (hD : D.all tokenSafe = true) :
    processSegment
        ("<http://valid.url?page_info=".data ++
          (P ++ ("&limit=".data ++ (D ++ ">; rel=\"next\"".data)))) =
      (match atoi D with
        | .error m => .error (.plain m)
        | .ok v => .ok ⟨String.mk P, some v⟩) := by
  have hgtP : '>' ∉ P := not_mem_of_all_tokenSafe hP (by decide)
  have hgtD : '>' ∉ D := not_mem_of_all_tokenSafe hD (by decide)
  have hampP : '&' ∉ P := not_mem_of_all_tokenSafe hP (by decide)
  have h1 : afterChar '<'
      ("<http://valid.url?page_info=".data ++
        (P ++ ("&limit=".data ++ (D ++ ">; rel=\"next\"".data)))) =
      some ("http://valid.url?page_info=".data ++
        (P ++ ("&limit=".data ++ (D ++ ">; rel=\"next\"".data)))) := by
    rw [show "<http://valid.url?page_info=".data =
        '<' :: "http://valid.url?page_info=".data from rfl, List.cons_append]
    simp [afterChar]
  have h2 : beforeChar '>'
      ("http://valid.url?page_info=".data ++
        (P ++ ("&limit=".data ++ (D ++ ">; rel=\"next\"".data)))) =
      "http://valid.url?page_info=".data ++ (P ++ ("&limit=".data ++ D)) := by
    rw [beforeChar_append_of_not_mem (by decide), beforeChar_append_of_not_mem hgtP,
      beforeChar_append_of_not_mem (by decide), beforeChar_append_of_not_mem hgtD,
      show ">; rel=\"next\"".data = '>' :: "; rel=\"next\"".data from rfl]
    simp [beforeChar]
  have hbr : bracketContent
      ("<http://valid.url?page_info=".data ++
        (P ++ ("&limit=".data ++ (D ++ ">; rel=\"next\"".data)))) =
      some ("http://valid.url?page_info=".data ++ (P ++ ("&limit=".data ++ D))) := by
    rw [bracketContent, h1, Option.map_some', h2]
  have hsplit : "http://valid.url?page_info=".data ++ (P ++ ("&limit=".data ++ D)) =
      "http://valid.url".data ++
        '?' :: ("page_info=".data ++ (P ++ ("&limit=".data ++ D))) := by
    rw [show "http://valid.url?page_info=".data =
        "http://valid.url".data ++ '?' :: "page_info=".data from rfl]
    simp
  have h3 : urlParse
      ("http://valid.url?page_info=".data ++ (P ++ ("&limit=".data ++ D))) =
      .ok ("page_info=".data ++ (P ++ ("&limit=".data ++ D))) := by
    rw [urlParse, hsplit,
      beforeChar_append (show '?' ∉ "http://valid.url".data by decide),
      afterChar_append (show '?' ∉ "http://valid.url".data by decide)]
    rw [if_pos (by decide)]
  have hf1 : parseQueryField ("page_info=".data ++ P) = .ok ("page_info".data, P) := by
    rw [show "page_info=".data = "page_info".data ++ ['='] from rfl,
      List.append_assoc, List.singleton_append]
    exact parseQueryField_eval (by decide) rfl
      (queryUnescape_of_safe (safe_no_escape hP))
  have hf2 : parseQueryField ("limit=".data ++ D) = .ok ("limit".data, D) := by
    rw [show "limit=".data = "limit".data ++ ['='] from rfl,
      List.append_assoc, List.singleton_append]
    exact parseQueryField_eval (by decide) rfl
      (queryUnescape_of_safe (safe_no_escape hD))
  have hqshape : "page_info=".data ++ (P ++ ("&limit=".data ++ D)) =
      ("page_info=".data ++ P) ++ '&' :: ("limit=".data ++ D) := by
    rw [show "&limit=".data = '&' :: "limit=".data from rfl]
    simp
  have hne1 : ("page_info=".data ++ P).isEmpty = false := by
    rw [show "page_info=".data = 'p' :: "age_info=".data from rfl, List.cons_append]
    rfl
  have hne2 : ("limit=".data ++ D).isEmpty = false := by
    rw [show "limit=".data = 'l' :: "imit=".data from rfl, List.cons_append]
    rfl
  have h4 : parseQuery ("page_info=".data ++ (P ++ ("&limit=".data ++ D))) =
      .ok [("page_info".data, P), ("limit".data, D)] := by
    rw [parseQuery, hqshape]
    rw [splitOnChar_append_cons (show '&' ∉ "page_info=".data ++ P by
      simp only [List.mem_append, not_or]
      exact ⟨by decide, hampP⟩)]
    rw [splitOnChar_of_not_mem (show '&' ∉ "limit=".data ++ D by
      simp only [List.mem_append, not_or]
      exact ⟨by decide, not_mem_of_all_tokenSafe hD (by decide)⟩)]
    simp only [List.filter, hne1, hne2, Bool.not_false, parseQueryFields, hf1, hf2]
  have h5 : getParam "page_info".data
      [("page_info".data, P), ("limit".data, D)] = some P := by
    simp [getParam]
  have h6 : getParam "limit".data
      [("page_info".data, P), ("limit".data, D)] = some D := by
    rw [getParam, if_neg (by decide), getParam, if_pos rfl]
  rw [processSegment, hbr]
  simp only [h3, h4, h5, h6]

/-! ## Claim theorems -/

/-- C1: for every single-segment `Link` header carrying a recognized
rel="next", a well-formed URL and a parsed query whose parameters hold a
`page_info` token and a `limit` parsing as a base-10 integer, extraction
succeeds, copies the token verbatim into `NextPageOptions.PageInfo` and the
parsed integer into `NextPageOptions.Limit`, with `PreviousPageOptions`
nil. -/
theorem extractPagination_next_token_limit (h : String) (u q : List Char)
    (params : List (List Char × List Char)) (pinfo lim : List Char) (v : Int)
    (hc : ',' ∉ h.data) (hr : relOf h.data = some .next)
    (hb : bracketContent h.data = some u) (hu : urlParse u = .ok q)
    (hq : parseQuery q = .ok params)
    (hpi : getParam "page_info".data params = some pinfo)
    (hlim : getParam "limit".data params = some lim)
    (ha : atoi lim = .ok v) :
    extractPagination h = .ok ⟨some ⟨String.mk pinfo, some v⟩, none⟩ := by
  rw [extract_single hc hr]
  simp [processSegment, hb, hu, hq, hpi, hlim, ha, singleResult]

/-- C1 witness: the test header carrying page_info foo and limit 2. -/
theorem extractPagination_next_token_limit_witness :
    extractPagination "<http://valid.url?page_info=foo&limit=2>; rel=\"next\"" =
      .ok ⟨some ⟨"foo", some 2⟩, none⟩ :=
  extractPagination_next_token_limit
    "<http://valid.url?page_info=foo&limit=2>; rel=\"next\""
    "http://valid.url?page_info=foo&limit=2".data
    "page_info=foo&limit=2".data
    [("page_info".data, "foo".data), ("limit".data, "2".data)]
    "foo".data "2".data 2
    (by decide) rfl rfl rfl rfl rfl rfl rfl

/-- The schema instance of the next-page extraction: headers of the shape
used by the test suite, for an arbitrary delimiter-free token and limit
literal. -/
theorem extractPagination_next_template (p d : String) (v : Int)
    (hp : p.data.all tokenSafe = true) (hd : d.data.all tokenSafe = true)
    (ha : atoi d.data = .ok v) :
    extractPagination
        ("<http://valid.url?page_info=" ++ p ++ "&limit=" ++ d ++ ">; rel=\"next\"") =
      .ok ⟨some ⟨p, some v⟩, none⟩ := by
  have hdata :
      ("<http://valid.url?page_info=" ++ p ++ "&limit=" ++ d ++ ">; rel=\"next\"").data =
      "<http://valid.url?page_info=".data ++
        (p.data ++ ("&limit=".data ++ (d.data ++ ">; rel=\"next\"".data))) := by
    simp [String.data_append]
  have hcomma :
      ',' ∉ ("<http://valid.url?page_info=" ++ p ++ "&limit=" ++ d ++ ">; rel=\"next\"").data := by
    rw [hdata]
    exact not_mem_append₅ (by decide) (not_mem_of_all_tokenSafe hp (by decide))
      (by decide) (not_mem_of_all_tokenSafe hd (by decide)) (by decide)
  have hrel :
      relOf ("<http://valid.url?page_info=" ++ p ++ "&limit=" ++ d ++ ">; rel=\"next\"").data =
        some .next := by
    rw [hdata]
    exact relOf_of_hasInfix_next
      (hasInfix_append_right _ (hasInfix_append_right _ (hasInfix_append_right _
        (hasInfix_append_right _ (by decide)))))
  rw [extract_single hcomma hrel, hdata,
    processSegment_next_schema p.data d.data hp hd, ha]
  rfl

/-- C3: a header of one rel="next" segment and one rel="previous" segment,
each processing successfully into its own options, populates both fields
independently, and exchanging the order of the two comma-separated segments
yields exactly the same `Pagination` value. -/
theorem extractPagination_two_segments_comm (s₁ s₂ : String) (o₁ o₂ : ListOptions)
    (hc₁ : ',' ∉ s₁.data) (hc₂ : ',' ∉ s₂.data)
    (hr₁ : relOf s₁.data = some .next) (hr₂ : relOf s₂.data = some .previous)
    (hp₁ : processSegment s₁.data = .ok o₁)
    (hp₂ : processSegment s₂.data = .ok o₂) :
    extractPagination (s₁ ++ "," ++ s₂) = .ok ⟨some o₁, some o₂⟩ ∧
    extractPagination (s₂ ++ "," ++ s₁) = .ok ⟨some o₁, some o₂⟩ := by
  constructor
  · rw [extract_two hc₁ hc₂ hr₁ hr₂]
    simp [assignSegments, hp₁, hp₂]
  · rw [extract_two hc₂ hc₁ hr₂ hr₁]
    simp [assignSegments, hp₁, hp₂]

/-- C3 witness: the two-segment header of the test suite, in both orders. -/
theorem extractPagination_two_segments_comm_witness :
    extractPagination
        ("<http://valid.url?page_info=foo>; rel=\"next\"" ++ "," ++
          " <http://valid.url?page_info=bar>; rel=\"previous\"") =
      .ok ⟨some ⟨"foo", none⟩, some ⟨"bar", none⟩⟩ ∧
    extractPagination
        (" <http://valid.url?page_info=bar>; rel=\"previous\"" ++ "," ++
          "<http://valid.url?page_info=foo>; rel=\"next\"") =
      .ok ⟨some ⟨"foo", none⟩, some ⟨"bar", none⟩⟩ :=
  extractPagination_two_segments_comm
    "<http://valid.url?page_info=foo>; rel=\"next\""
    " <http://valid.url?page_info=bar>; rel=\"previous\""
    ⟨"foo", none⟩ ⟨"bar", none⟩
    (by decide) (by decide) rfl rfl rfl rfl

/-- C2: for a response whose `Link` header is absent or the empty string
(an absent header reaches the extractor as the empty string), pagination
extraction returns the zero-value `Pagination` with no error, and a
list-with-pagination call returns the decoded items together with this
non-nil zero-value pagination and a nil error. -/
theorem extractPagination_empty_link_header :
    extractPagination "" = .ok ⟨none, none⟩ ∧
    ∀ (α : Type) (items : List α),
      listWithPagination (.success items "") =
        ⟨some items, some ⟨none, none⟩, none⟩ :=
  ⟨rfl, fun _ _ => rfl⟩

/-- C4: a non-empty `Link` header none of whose comma-separated segments
carries a `rel=` parameter recognized as next or previous fails with the
decoding error "could not extract pagination link header", and the
list-with-pagination call returns nil items and nil pagination with that
error. -/
theorem extractPagination_no_recognized_rel (h : String) (hne : ¬ h = "")
    (hrel : ∀ seg ∈ splitOnChar ',' h.data, relOf seg = none) :
    extractPagination h =
      .error (.responseDecoding "could not extract pagination link header") ∧
    ∀ (α : Type) (items : List α),
      listWithPagination (.success items h) =
        ⟨none, none,
          some (.responseDecoding "could not extract pagination link header")⟩ := by
  have hrec : recognizedSegments (splitOnChar ',' h.data) = [] := by
    rw [recognizedSegments]
    apply List.filterMap_eq_nil_iff.mpr
    intro s hs
    rw [hrel s hs]
    rfl
  have hx : extractPagination h =
      .error (.responseDecoding "could not extract pagination link header") := by
    rw [extractPagination, if_neg hne]
    simp [hrec]
  exact ⟨hx, fun α items => by simp [listWithPagination, hx]⟩

/-- C4 witness: the header "invalid link" from the test suite. -/
theorem extractPagination_no_recognized_rel_witness :
    extractPagination "invalid link" =
      .error (.responseDecoding "could not extract pagination link header") ∧
    ∀ (α : Type) (items : List α),
      listWithPagination (.success items "invalid link") =
        ⟨none, none,
          some (.responseDecoding "could not extract pagination link header")⟩ :=
  extractPagination_no_recognized_rel "invalid link" (by decide) (by decide)

/-- C5: a `Link` header segment with a recognized rel whose content between
`<` and `>` does not parse as a well-formed URL fails with the decoding
error "pagination does not contain a valid URL". -/
theorem extractPagination_invalid_url (h : String) (r : Rel) (u : List Char)
    (m : String) (hc : ',' ∉ h.data) (hr : relOf h.data = some r)
    (hb : bracketContent h.data = some u) (hu : urlParse u = .error m) :
    extractPagination h =
      .error (.responseDecoding "pagination does not contain a valid URL") := by
  rw [extract_single hc hr]
  simp [processSegment, hb, hu, singleResult]

/-- C5 witness: the header with URL `:invalid.url` from the test suite. -/
theorem extractPagination_invalid_url_witness :
    extractPagination "<:invalid.url>; rel=\"next\"" =
      .error (.responseDecoding "pagination does not contain a valid URL") :=
  extractPagination_invalid_url "<:invalid.url>; rel=\"next\"" .next
    ":invalid.url".data "missing protocol scheme" (by decide) rfl rfl rfl

/-- C6: a `Link` header segment whose URL is well-formed and whose query
string parses, but whose query parameters carry no `page_info` key, fails
with the decoding error "page_info is missing". -/
theorem extractPagination_missing_page_info (h : String) (r : Rel)
    (u q : List Char) (params : List (List Char × List Char))
    (hc : ',' ∉ h.data) (hr : relOf h.data = some r)
    (hb : bracketContent h.data = some u) (hu : urlParse u = .ok q)
    (hq : parseQuery q = .ok params)
    (hpi : getParam "page_info".data params = none) :
    extractPagination h = .error (.responseDecoding "page_info is missing") := by
  rw [extract_single hc hr]
  simp [processSegment, hb, hu, hq, hpi, singleResult]

/-- C6 witness: the header whose URL carries no query parameters, from the
test suite. -/
theorem extractPagination_missing_page_info_witness :
    extractPagination "<http://valid.url>; rel=\"next\"" =
      .error (.responseDecoding "page_info is missing") :=
  extractPagination_missing_page_info "<http://valid.url>; rel=\"next\"" .next
    "http://valid.url".data [] [] (by decide) rfl rfl rfl rfl rfl

/-- C7: a malformed query escape, and a `limit` parameter that is not a
base-10 integer, each make extraction fail with the underlying parse error
propagated unchanged (a `plain` error, never rewrapped as a decoding
error). -/
theorem extractPagination_propagates_parse_errors :
    (∀ (h : String) (r : Rel) (u q : List Char) (m : String),
      ',' ∉ h.data → relOf h.data = some r → bracketContent h.data = some u →
      urlParse u = .ok q → parseQuery q = .error m →
      extractPagination h = .error (.plain m)) ∧
    (∀ (h : String) (r : Rel) (u q : List Char)
      (params : List (List Char × List Char)) (pinfo lim : List Char)
      (m : String),
      ',' ∉ h.data → relOf h.data = some r → bracketContent h.data = some u →
      urlParse u = .ok q → parseQuery q = .ok params →
      getParam "page_info".data params = some pinfo →
      getParam "limit".data params = some lim → atoi lim = .error m →
      extractPagination h = .error (.plain m)) := by
  constructor
  · intro h r u q m hc hr hb hu hq
    rw [extract_single hc hr]
    simp [processSegment, hb, hu, hq, singleResult]
  · intro h r u q params pinfo lim m hc hr hb hu hq hpi hlim ha
    rw [extract_single hc hr]
    simp [processSegment, hb, hu, hq, hpi, hlim, ha, singleResult]

/-- C7 witness: the malformed-escape header and the non-integer-limit header
from the test suite, with the Go error literals. -/
theorem extractPagination_propagates_parse_errors_witness :
    extractPagination "<http://valid.url?%invalid_query>; rel=\"next\"" =
      .error (.plain "invalid URL escape \"%in\"") ∧
    extractPagination "<http://valid.url?page_info=foo&limit=invalid>; rel=\"next\"" =
      .error (.plain "strconv.Atoi: parsing \"invalid\": invalid syntax") :=
  ⟨extractPagination_propagates_parse_errors.1
      "<http://valid.url?%invalid_query>; rel=\"next\"" .next
      "http://valid.url?%invalid_query".data "%invalid_query".data
      "invalid URL escape \"%in\"" (by decide) rfl rfl rfl rfl,
    extractPagination_propagates_parse_errors.2
      "<http://valid.url?page_info=foo&limit=invalid>; rel=\"next\"" .next
      "http://valid.url?page_info=foo&limit=invalid".data
      "page_info=foo&limit=invalid".data
      [("page_info".data, "foo".data), ("limit".data, "invalid".data)]
      "foo".data "invalid".data
      "strconv.Atoi: parsing \"invalid\": invalid syntax"
      (by decide) rfl rfl rfl rfl rfl rfl rfl⟩

/-- C8: whenever a list-with-pagination call carries a non-nil error, its
item sequence and its pagination are both nil; decoded items or a cursor are
never returned alongside an error. -/
theorem listWithPagination_err_implies_nils (α : Type) (r : DispatchResult α)
    (e : ShopifyError) (he : (listWithPagination r).err = some e) :
    (listWithPagination r).items = none ∧
    (listWithPagination r).pagination = none := by
  cases r with
  | failure e' => exact ⟨rfl, rfl⟩
  | success items link =>
    cases hx : extractPagination link with
    | error e' => simp [listWithPagination, hx]
    | ok pag => simp [listWithPagination, hx] at he

/-- C8 witness: a dispatcher failure. -/
theorem listWithPagination_err_implies_nils_witness :
    (listWithPagination
        (DispatchResult.failure (ShopifyError.unknown 500) : DispatchResult Nat)).items
      = none ∧
    (listWithPagination
        (DispatchResult.failure (ShopifyError.unknown 500) : DispatchResult Nat)).pagination
      = none :=
  listWithPagination_err_implies_nils Nat (.failure (.unknown 500))
    (.unknown 500) rfl

/-- C9: a non-2xx response whose body is empty or matches no known
structured error shape classifies to an `UnknownError` whose rendered
message is exactly "Unknown Error", and the `List` call returns a nil
sequence with that error. -/
theorem classifyError_unstructured_unknown (α : Type) (status : Nat)
    (body : ErrorBodyShape) (_hs : status < 200 ∨ 300 ≤ status)
    (hb : body = .empty ∨ body = .unstructured) :
    classifyError status body = .unknown status ∧
    errorMessage (classifyError status body) = "Unknown Error" ∧
    list (DispatchResult.failure (classifyError status body) : DispatchResult α) =
      (none, some (.unknown status)) := by
  rcases hb with hb | hb <;> subst hb <;> exact ⟨rfl, rfl, rfl⟩

/-- C9 witness: a 500 response with an empty body. -/
theorem classifyError_unstructured_unknown_witness :
    classifyError 500 .empty = .unknown 500 ∧
    errorMessage (classifyError 500 .empty) = "Unknown Error" ∧
    list (DispatchResult.failure (classifyError 500 .empty) : DispatchResult Nat) =
      (none, some (.unknown 500)) :=
  classifyError_unstructured_unknown Nat 500 .empty (Or.inr (by decide))
    (Or.inl rfl)

/-- C10: `List` is the projection of `ListWithPagination` onto its item
sequence: on success it returns exactly the items `ListWithPagination`
returns (discarding the cursor), and whenever `ListWithPagination` carries a
non-nil error — including a pagination-extraction error after a successful
body decode — `List` returns nil items with that error. -/
theorem list_is_projection (α : Type) (r : DispatchResult α) :
    ((listWithPagination r).err = none →
      list r = ((listWithPagination r).items, none)) ∧
    ∀ e : ShopifyError, (listWithPagination r).err = some e →
      list r = (none, some e) := by
  constructor
  · intro he
    simp [list, he]
  · intro e he
    simp [list, he]

/-- C10 witness: a successful dispatch with no `Link` header, and a failed
dispatch. -/
theorem list_is_projection_witness :
    list (DispatchResult.success [(5 : Nat)] "") = (some [(5 : Nat)], none) ∧
    list (DispatchResult.failure (ShopifyError.unknown 500) : DispatchResult Nat) =
      (none, some (ShopifyError.unknown 500)) :=
  ⟨(list_is_projection Nat (.success [(5 : Nat)] "")).1 rfl,
    (list_is_projection Nat (.failure (.unknown 500))).2 (.unknown 500) rfl⟩

end GoShopify
